import Mathlib

/-!
Shallow embedding of the X-Ray SDK core (services/sdk/src/xray.ts) and the
Filter creation path of the API service (repositories/filters.ts), together
with theorems settling the frozen claims about the instrumentation lifecycle
and the adaptive capture strategy.

Modelling conventions:
* JavaScript numbers that only ever hold integral values (scores, counts,
  thresholds, timestamps) are modelled as `Int` / `Nat`.
* `undefined` / optional fields are `Option`.  JavaScript `x || d` on numbers
  is `jsOr` (`0` is falsy), `x ?? d` is `Option.getD`.
* JSON payloads (`data`, `config`, `input`, `output`) are opaque `Option
  String` values; metadata objects are association lists, `{}` being `[]`.
* `uuidv4()` and server-assigned identifiers are nondeterministic; they are
  supplied as explicit arguments (or fixed to `""` where no claim can observe
  them).  `Math.random()` is supplied as a function `r : Nat → Nat`; at loop
  index `i` the source draws `j = floor(random * (i+1)) ∈ [0, i]`, embedded
  as `r i % (i+1)`.
* Network calls through `XRayClient` are modelled by returning the request
  payload and, where a claim depends on transport failure, by an explicit
  success flag argument.
-/

namespace Xray

/-- JavaScript `v || d` on an integral number: `0` is falsy. -/
def jsOr (v : Int) (d : Int) : Int :=
  if v = 0 then d else v

/-- JavaScript `o || d` where `o` may be `undefined`: absent and `0` both
give the default. -/
def jsOrOpt (o : Option Int) (d : Int) : Int :=
  match o with
  | none => d
  | some v => jsOr v d

/-- JavaScript `Array.prototype.slice(0, e)`: a negative end index counts
from the end of the array (clamped at 0); a non-negative one is a plain
`take` (clamped at the length). -/
def jsSliceTo (l : List α) (e : Int) : List α :=
  if e < 0 then l.take ((l.length : Int) + e).toNat
  else l.take e.toNat

theorem jsSliceTo_nonneg (l : List α) (e : Int) (he : 0 ≤ e) :
    jsSliceTo l e = l.take e.toNat := by
  unfold jsSliceTo
  rw [if_neg (by omega)]

theorem length_jsSliceTo_nonneg (l : List α) (e : Int) (he : 0 ≤ e) :
    (jsSliceTo l e).length = min e.toNat l.length := by
  rw [jsSliceTo_nonneg l e he, List.length_take]

/-! ### Stable descending sort

`accepted.sort((a, b) => (b.score || 0) - (a.score || 0))` sorts the array so
that consecutive elements `a, b` satisfy `key b ≤ key a` (descending by key),
where `key x = x.score || 0`.  ECMAScript requires `Array.prototype.sort` to
be stable, which the insertion sort below is: an element is placed before all
strictly smaller keys and before later elements with an equal key. -/

def insertDesc (key : α → Int) (a : α) : List α → List α
  | [] => [a]
  | b :: l => if key a ≥ key b then a :: b :: l else b :: insertDesc key a l

def sortDesc (key : α → Int) : List α → List α
  | [] => []
  | a :: l => insertDesc key a (sortDesc key l)

theorem mem_insertDesc (key : α → Int) (a : α) (l : List α) (x : α) :
    x ∈ insertDesc key a l ↔ x = a ∨ x ∈ l := by
  induction l with
  | nil => simp [insertDesc]
  | cons b t ih =>
    by_cases h : key a ≥ key b
    · simp [insertDesc, h]
    · simp [insertDesc, h, ih]
      tauto

theorem pairwise_insertDesc (key : α → Int) (a : α) (l : List α)
    (h : l.Pairwise (fun x y => key y ≤ key x)) :
    (insertDesc key a l).Pairwise (fun x y => key y ≤ key x) := by
  induction l with
  | nil => simp [insertDesc]
  | cons b t ih =>
    rcases List.pairwise_cons.mp h with ⟨hb, ht⟩
    by_cases hab : key a ≥ key b
    · rw [insertDesc, if_pos hab]
      refine List.pairwise_cons.mpr ⟨?_, h⟩
      intro z hz
      rcases List.mem_cons.mp hz with rfl | hz
      · exact hab
      · exact le_trans (hb z hz) hab
    · rw [insertDesc, if_neg hab]
      refine List.pairwise_cons.mpr ⟨?_, ih ht⟩
      intro z hz
      rcases (mem_insertDesc key a t z).mp hz with rfl | hz
      · omega
      · exact hb z hz

theorem pairwise_sortDesc (key : α → Int) (l : List α) :
    (sortDesc key l).Pairwise (fun x y => key y ≤ key x) := by
  induction l with
  | nil => simp [sortDesc]
  | cons a t ih => exact pairwise_insertDesc key a _ ih

theorem length_insertDesc (key : α → Int) (a : α) (l : List α) :
    (insertDesc key a l).length = l.length + 1 := by
  induction l with
  | nil => rfl
  | cons b t ih =>
    by_cases h : key a ≥ key b
    · simp [insertDesc, h]
    · simp [insertDesc, h, ih]

theorem length_sortDesc (key : α → Int) (l : List α) :
    (sortDesc key l).length = l.length := by
  induction l with
  | nil => rfl
  | cons a t ih => simp [sortDesc, length_insertDesc, ih]

/-- In a list sorted descending by `key`, every kept element (`take n`)
dominates every discarded one (`drop n`). -/
theorem take_drop_dominance (key : α → Int) (l : List α)
    (h : l.Pairwise (fun x y => key y ≤ key x)) (n : Nat) :
    ∀ x ∈ l.take n, ∀ y ∈ l.drop n, key y ≤ key x := by
  have h2 : ((l.take n) ++ (l.drop n)).Pairwise (fun x y => key y ≤ key x) := by
    rw [List.take_append_drop]
    exact h
  exact fun x hx y hy => (List.pairwise_append.mp h2).2.2 x hx y hy

/-! ### Fisher–Yates shuffle (`XRay.shuffle`)

```
const shuffled = [...array];
for (let i = shuffled.length - 1; i > 0; i--) {
  const j = Math.floor(Math.random() * (i + 1));
  [shuffled[i], shuffled[j]] = [shuffled[j], shuffled[i]];
}
```
-/

def swapList (l : List α) (i j : Nat) : List α :=
  match l.get? i, l.get? j with
  | some a, some b => (l.set i b).set j a
  | _, _ => l

theorem length_swapList (l : List α) (i j : Nat) :
    (swapList l i j).length = l.length := by
  unfold swapList
  cases l.get? i <;> cases l.get? j <;> simp

/-- The loop body for counter values `i, i-1, …, 1` (the loop exits at 0). -/
def fyLoop (r : Nat → Nat) : Nat → List α → List α
  | 0, l => l
  | i + 1, l => fyLoop r i (swapList l (i + 1) (r (i + 1) % (i + 1 + 1)))

theorem length_fyLoop (r : Nat → Nat) (i : Nat) (l : List α) :
    (fyLoop r i l).length = l.length := by
  induction i generalizing l with
  | zero => rfl
  | succ k ih => rw [fyLoop, ih, length_swapList]

def shuffle (r : Nat → Nat) (l : List α) : List α :=
  fyLoop r (l.length - 1) l

theorem length_shuffle (r : Nat → Nat) (l : List α) :
    (shuffle r l).length = l.length := by
  unfold shuffle
  exact length_fyLoop r _ l

/-! ### Configuration (`XRayConfig` and the constructor's merge) -/

/-- The caller-supplied `XRayConfig`.  An absent optional key and a key set to
`undefined` are both `none` (they are observationally equal downstream because
every use site re-applies a `|| default`). -/
structure XRayConfig where
  apiUrl : String
  timeout : Option Int := none
  retryOnFailure : Option Bool := none
  fullCaptureThreshold : Option Int := none
  summaryThreshold : Option Int := none
  topAcceptedCount : Option Int := none
  sampleRejectedCount : Option Int := none
deriving DecidableEq, Repr

/-- The merged configuration stored in `this.config` after
`{ fullCaptureThreshold: 100, summaryThreshold: 1000, topAcceptedCount: 50,
sampleRejectedCount: 20, ...config }`. -/
structure MergedConfig where
  apiUrl : String
  timeout : Option Int := none
  retryOnFailure : Option Bool := none
  fullCaptureThreshold : Int := 100
  summaryThreshold : Int := 1000
  topAcceptedCount : Int := 50
  sampleRejectedCount : Int := 20
deriving DecidableEq, Repr

def mergeConfig (c : XRayConfig) : MergedConfig :=
  { apiUrl := c.apiUrl
    timeout := c.timeout
    retryOnFailure := c.retryOnFailure
    fullCaptureThreshold := c.fullCaptureThreshold.getD 100
    summaryThreshold := c.summaryThreshold.getD 1000
    topAcceptedCount := c.topAcceptedCount.getD 50
    sampleRejectedCount := c.sampleRejectedCount.getD 20 }

/-- Error taxonomy of the SDK and repository layers. -/
inductive XError where
  | noActiveRun
  | unknownStep (stepId : String)
  | transport
  | configuration
deriving DecidableEq, Repr

/-- The `XRay` constructor.  The source body only merges the defaults into the
supplied config and builds the transport client; it contains no validation and
no `throw`.  The codomain is `Except XError` solely so that the (absent)
possibility of a construction-time configuration error is statable. -/
def xrayInit (c : XRayConfig) : Except XError MergedConfig :=
  .ok (mergeConfig c)

/-- Use-site read `this.config.fullCaptureThreshold || 100`. -/
def effFullCaptureThreshold (cfg : MergedConfig) : Int :=
  jsOr cfg.fullCaptureThreshold 100

/-- Use-site read `this.config.topAcceptedCount || 50`. -/
def effTopAcceptedCount (cfg : MergedConfig) : Int :=
  jsOr cfg.topAcceptedCount 50

/-- Use-site read `this.config.sampleRejectedCount || 20`. -/
def effSampleRejectedCount (cfg : MergedConfig) : Int :=
  jsOr cfg.sampleRejectedCount 20

/-- The merged config produced by `new XRay({ apiUrl: "u" })`. -/
def defaultConfig : MergedConfig :=
  mergeConfig { apiUrl := "u" }

/-! ### Evidence model (`@xray/shared` record kinds) -/

/-- Run/Step lifecycle status. -/
inductive LifeStatus where
  | running
  | completed
  | failed
deriving DecidableEq, Repr

/-- Candidate status. -/
inductive CandStatus where
  | accepted
  | rejected
  | pending
deriving DecidableEq, Repr

/-- Opaque JSON payload. -/
abbrev Payload := Option String

/-- Metadata object; `{}` is `[]`. -/
abbrev Metadata := List (String × String)

/-- Source type `CandidateOptions`: one raw evaluated item submitted to
`recordCandidates`. -/
structure CandidateOptions where
  candidateId : String
  score : Option Int := none
  dat : Payload := none
  metadata : Option Metadata := none
deriving DecidableEq, Repr

/-- A persisted `Candidate` evidence record. -/
structure Candidate where
  id : String
  stepId : String
  candidateId : String
  status : CandStatus
  score : Option Int := none
  reason : Option String := none
  dat : Payload := none
  metadata : Metadata := []
deriving DecidableEq, Repr

/-- An in-flight `Step` tracked by the engine. -/
structure Step where
  id : String
  runId : String
  stepType : String
  stepIndex : Nat
  status : LifeStatus
  startedAt : Int
  completedAt : Option Int := none
  input : Payload := none
  output : Payload := none
  reasoning : Option String := none
  config : Payload := none
  metadata : Metadata := []
  inputCount : Option Nat := none
  outputCount : Option Nat := none
  durationMs : Option Int := none
  error : Option String := none
  captureAllCandidates : Option Bool := none
deriving DecidableEq, Repr

/-- An in-flight `Run` tracked by the engine. -/
structure Run where
  id : String
  pipelineId : String
  pipelineVersion : Option String := none
  status : LifeStatus
  startedAt : Int
  completedAt : Option Int := none
  metadata : Metadata := []
  input : Payload := none
  output : Payload := none
  error : Option String := none
deriving DecidableEq, Repr

/-! ### Adaptive capture strategy (`XRay.recordCandidates`, pure core)

The body of `recordCandidates` between the step lookup and the
`client.createCandidates` call is pure except for `uuidv4()` (identifiers,
fixed to `""`: no claim observes them) and `Math.random()` (supplied as
`r`). -/

/-- Membership test `acceptedIds.includes(candidate.candidateId)`. -/
def isAccepted (acceptedIds : List String) (c : CandidateOptions) : Bool :=
  acceptedIds.contains c.candidateId

/-- The single-pass partition loop building `accepted` / `rejected`. -/
def acceptedPart (candidates : List CandidateOptions)
    (acceptedIds : List String) : List CandidateOptions :=
  candidates.filter (isAccepted acceptedIds)

def rejectedPart (candidates : List CandidateOptions)
    (acceptedIds : List String) : List CandidateOptions :=
  candidates.filter (fun c => !isAccepted acceptedIds c)

/-- The comparator key `candidate.score || 0` of the hybrid-mode sort. -/
def scoreKey (c : CandidateOptions) : Int :=
  jsOrOpt c.score 0

/-- One record of the `captureAll` loop. -/
def fullCaptureRecord (stepId : String) (acceptedIds : List String)
    (c : CandidateOptions) : Candidate :=
  let status : CandStatus :=
    if isAccepted acceptedIds c then .accepted else .rejected
  { id := ""
    stepId := stepId
    candidateId := c.candidateId
    status := status
    score := c.score
    reason := if status = .rejected then some "Filtered out" else none
    dat := c.dat
    metadata := c.metadata.getD [] }

/-- One record of the hybrid-mode `topAccepted` loop (no `reason` field). -/
def topAcceptedRecord (stepId : String) (c : CandidateOptions) : Candidate :=
  { id := ""
    stepId := stepId
    candidateId := c.candidateId
    status := .accepted
    score := c.score
    reason := none
    dat := c.dat
    metadata := c.metadata.getD [] }

/-- One record of the hybrid-mode `sampled` loop (no `score` field). -/
def sampledRejectedRecord (stepId : String) (c : CandidateOptions) :
    Candidate :=
  { id := ""
    stepId := stepId
    candidateId := c.candidateId
    status := .rejected
    score := none
    reason := some "Filtered out"
    dat := c.dat
    metadata := c.metadata.getD [] }

/-- Resolution `step.captureAllCandidates ?? (totalCount < (fullCaptureThreshold || 100))`. -/
def resolveCaptureAll (cfg : MergedConfig) (step : Step)
    (totalCount : Nat) : Bool :=
  step.captureAllCandidates.getD
    (decide ((totalCount : Int) < effFullCaptureThreshold cfg))

/-- The sorted accepted partition of hybrid mode. -/
def sortedAccepted (candidates : List CandidateOptions)
    (acceptedIds : List String) : List CandidateOptions :=
  sortDesc scoreKey (acceptedPart candidates acceptedIds)

/-- The list `candidatesToRecord` as built by the source, given the already-resolved
`captureAll` flag. -/
def candidatesToRecord (cfg : MergedConfig) (stepId : String)
    (candidates : List CandidateOptions) (acceptedIds : List String)
    (captureAll : Bool) (r : Nat → Nat) : List Candidate :=
  if captureAll then
    candidates.map (fullCaptureRecord stepId acceptedIds)
  else
    let rejected := rejectedPart candidates acceptedIds
    let topAccepted :=
      jsSliceTo (sortedAccepted candidates acceptedIds)
        (effTopAcceptedCount cfg)
    let sampleSize :=
      min (effSampleRejectedCount cfg) (rejected.length : Int)
    let sampled := jsSliceTo (shuffle r rejected) sampleSize
    topAccepted.map (topAcceptedRecord stepId)
      ++ sampled.map (sampledRejectedRecord stepId)

/-- The pure core of `recordCandidates`: updates the step's counters and
builds the list of records to persist. -/
def recordCandidatesCore (cfg : MergedConfig) (step : Step)
    (candidates : List CandidateOptions) (acceptedIds : List String)
    (r : Nat → Nat) : Step × List Candidate :=
  let totalCount := candidates.length
  let acceptedCount := acceptedIds.length
  let step' := { step with
    inputCount := some totalCount
    outputCount := some acceptedCount }
  let captureAll := resolveCaptureAll cfg step totalCount
  (step', candidatesToRecord cfg step.id candidates acceptedIds captureAll r)

/-! ### Run/step lifecycle engine (`XRay` instance state) -/

/-- JavaScript truthiness of an optional string (`undefined` and `""` are
falsy), used by `error ? 'failed' : 'completed'` and `if (reasoning)`. -/
def jsTruthyStr (o : Option String) : Bool :=
  match o with
  | none => false
  | some s => s ≠ ""

/-- The three mutable fields of an `XRay` instance:
`currentRun`, `stepIndex`, `pendingSteps`.  The `Map<string, Step>` is an
insertion-ordered association list keyed by `Step.id`. -/
structure EngineState where
  currentRun : Option Run
  stepIndex : Nat
  pendingSteps : List Step
deriving DecidableEq, Repr

/-- Lookup `pendingSteps.get(stepId)`. -/
def mapGet (m : List Step) (stepId : String) : Option Step :=
  m.find? (fun st => st.id == stepId)

/-- Update `pendingSteps.set(step.id, step)`: overwrite in place, else append. -/
def mapSet (m : List Step) (st : Step) : List Step :=
  if m.any (fun e => e.id == st.id) then
    m.map (fun e => if e.id == st.id then st else e)
  else m ++ [st]

/-- Removal `pendingSteps.delete(stepId)` (keys are unique, so removing every match
equals removing the one entry). -/
def mapDelete (m : List Step) (stepId : String) : List Step :=
  m.filter (fun st => st.id != stepId)

/-- Source type `RunOptions`. -/
structure RunOptions where
  pipelineId : String
  pipelineVersion : Option String := none
  metadata : Option Metadata := none
  input : Payload := none
deriving DecidableEq, Repr

/-- Source type `StepOptions`. -/
structure StepOptions where
  stepType : String
  input : Payload := none
  reasoning : Option String := none
  config : Payload := none
  metadata : Option Metadata := none
  captureAllCandidates : Option Bool := none
deriving DecidableEq, Repr

/-- Method `XRay.startRun`.  The server assigns `id`, `startedAt` and
`status = running`; those response values are the `apiId` / `apiStartedAt`
arguments.  On success the engine installs the run and resets the step
counter and the open-step registry. -/
def startRun (s : EngineState) (o : RunOptions) (apiId : String)
    (apiStartedAt : Int) : EngineState × Run :=
  let run : Run :=
    { id := apiId
      pipelineId := o.pipelineId
      pipelineVersion := o.pipelineVersion
      status := .running
      startedAt := apiStartedAt
      metadata := o.metadata.getD []
      input := o.input }
  ({ currentRun := some run, stepIndex := 0, pendingSteps := [] }, run)

/-- Method `XRay.getCurrentRun`. -/
def getCurrentRun (s : EngineState) : Option Run :=
  s.currentRun

/-- The step object built by `startStep` (identifier and start time already
replaced by the server-assigned response values). -/
def mkStep (o : StepOptions) (runId : String) (idx : Nat) (apiId : String)
    (apiStartedAt : Int) : Step :=
  { id := apiId
    runId := runId
    stepType := o.stepType
    stepIndex := idx
    status := .running
    startedAt := apiStartedAt
    input := o.input
    reasoning := o.reasoning
    config := o.config
    metadata := o.metadata.getD []
    captureAllCandidates := o.captureAllCandidates }

/-- Method `XRay.startStep`.  Fails when no run is active; otherwise assigns
`stepIndex = this.stepIndex++` and registers the step (with its
server-assigned identifier) as open. -/
def startStep (s : EngineState) (o : StepOptions) (apiId : String)
    (apiStartedAt : Int) : Except XError (EngineState × Step) :=
  match s.currentRun with
  | none => .error .noActiveRun
  | some run =>
    let step := mkStep o run.id s.stepIndex apiId apiStartedAt
    .ok
      ({ s with
          stepIndex := s.stepIndex + 1
          pendingSteps := mapSet s.pendingSteps step },
        step)

/-- The `updates` object sent to `client.updateStep` by `completeStep`
(optional fields are included only when defined on the step). -/
structure StepUpdate where
  stepId : String
  status : LifeStatus
  completedAt : Int
  durationMs : Int
  output : Payload := none
  error : Option String := none
  reasoning : Option String := none
deriving DecidableEq, Repr

/-- Method `XRay.completeStep`: looks the step up in the open-step registry, mutates
it (status from truthiness of `error`, completion time, duration, optional
reasoning overwrite), sends the update, removes the registry entry. -/
def completeStep (s : EngineState) (stepId : String) (output : Payload)
    (error : Option String) (reasoning : Option String) (now : Int) :
    Except XError (EngineState × StepUpdate) :=
  match mapGet s.pendingSteps stepId with
  | none => .error (.unknownStep stepId)
  | some step =>
    let durationMs := now - step.startedAt
    let step' : Step :=
      { step with
          status := if jsTruthyStr error then .failed else .completed
          completedAt := some now
          output := output
          error := error
          durationMs := some durationMs
          reasoning := if jsTruthyStr reasoning then reasoning
                       else step.reasoning }
    let upd : StepUpdate :=
      { stepId := stepId
        status := step'.status
        completedAt := now
        durationMs := durationMs
        output := step'.output
        error := step'.error
        reasoning := step'.reasoning }
    .ok ({ s with pendingSteps := mapDelete s.pendingSteps stepId }, upd)

/-- The force-close pass of `completeRun`:
`for (const step of this.pendingSteps.values()) if (step.status === 'running')
await this.completeStep(step.id, undefined, "Run completed")`.
The iteration snapshot is the registry at loop entry; `completeStep` only
removes entries, so visiting the snapshot in order is faithful to live `Map`
iteration. -/
def forceCloseLoop (now : Int) :
    List Step → EngineState → EngineState × List StepUpdate
  | [], s => (s, [])
  | st :: rest, s =>
    if st.status = .running then
      match completeStep s st.id none (some "Run completed") none now with
      | .ok (s', upd) =>
        let (s'', upds) := forceCloseLoop now rest s'
        (s'', upd :: upds)
      | .error _ => forceCloseLoop now rest s
    else forceCloseLoop now rest s

/-- Method `XRay.completeRun`: marks the run, force-closes the still-running steps,
then issues `client.updateRun` (whose success is the `updateRunOk` flag — on
failure the thrown error propagates before any engine-local state is
cleared) and finally clears the engine state.  Returns the state after the
call, the step updates sent, and the error if one was thrown. -/
def completeRun (s : EngineState) (output : Payload) (error : Option String)
    (now : Int) (updateRunOk : Bool) :
    EngineState × List StepUpdate × Option XError :=
  match s.currentRun with
  | none => (s, [], some .noActiveRun)
  | some run =>
    let run' : Run :=
      { run with
          status := if jsTruthyStr error then .failed else .completed
          completedAt := some now
          output := output
          error := error }
    let s1 := { s with currentRun := some run' }
    let res := forceCloseLoop now s1.pendingSteps s1
    if updateRunOk then
      ({ res.1 with currentRun := none, stepIndex := 0, pendingSteps := [] },
        res.2, none)
    else
      (res.1, res.2, some .transport)

/-- Method `XRay.recordCandidates` at the engine level: step lookup, counter update
on the registered step, record construction. -/
def recordCandidates (cfg : MergedConfig) (s : EngineState) (stepId : String)
    (candidates : List CandidateOptions) (acceptedIds : List String)
    (r : Nat → Nat) : Except XError (EngineState × List Candidate) :=
  match mapGet s.pendingSteps stepId with
  | none => .error (.unknownStep stepId)
  | some step =>
    let core := recordCandidatesCore cfg step candidates acceptedIds r
    .ok ({ s with pendingSteps := mapSet s.pendingSteps core.1 }, core.2)

/-- Iterate `startStep` over a list of call parameters, collecting the
`stepIndex` of each successfully returned step. -/
def startSteps (s : EngineState) :
    List (StepOptions × String × Int) → EngineState × List Nat
  | [] => (s, [])
  | (o, apiId, t) :: rest =>
    match startStep s o apiId t with
    | .ok (s', st) =>
      let res := startSteps s' rest
      (res.1, st.stepIndex :: res.2)
    | .error _ => startSteps s rest

/-! ### Filter records (`XRay.recordFilter` and `FiltersRepository.create`) -/

/-- Source type `FilterOptions` supplied to `XRay.recordFilter`. -/
structure FilterOptions where
  filterType : String
  config : Payload := none
  candidatesAffected : Int
  candidatesRejected : Int
  metadata : Option Metadata := none
deriving DecidableEq, Repr

/-- The request body `XRay.recordFilter` sends to `client.createFilter`. -/
structure FilterCreateBody where
  stepId : String
  filterType : String
  config : Payload
  candidatesAffected : Int
  candidatesRejected : Int
  metadata : Metadata
deriving DecidableEq, Repr

/-- Method `XRay.recordFilter`: builds the filter object and forwards it unchanged —
no validation of the counts anywhere in the SDK. -/
def recordFilter (stepId : String) (o : FilterOptions) : FilterCreateBody :=
  { stepId := stepId
    filterType := o.filterType
    config := o.config
    candidatesAffected := o.candidatesAffected
    candidatesRejected := o.candidatesRejected
    metadata := o.metadata.getD [] }

/-- Input `Partial<FilterDomain>` as received by `FiltersRepository.create`. -/
structure FilterData where
  id : Option String := none
  stepId : Option String := none
  filterType : Option String := none
  config : Payload := none
  candidatesAffected : Option Int := none
  candidatesRejected : Option Int := none
  metadata : Option Metadata := none
deriving DecidableEq, Repr

/-- A persisted `Filter` domain record. -/
structure FilterDomain where
  id : String
  stepId : String
  filterType : String
  config : Payload
  candidatesAffected : Int
  candidatesRejected : Int
  metadata : Metadata
deriving DecidableEq, Repr

/-- The record `FiltersRepository.create` persists:
`{ id: uuidv4(), …defaults…, ...data }` — the trailing spread means every
field present on `data` wins.  The TypeScript non-null assertions (`data.x!`)
on absent fields are runtime no-ops; an absent required field is modelled by
an empty default, which no claim observes. -/
def filtersCreateRecord (uuid : String) (d : FilterData) : FilterDomain :=
  { id := d.id.getD uuid
    stepId := d.stepId.getD ""
    filterType := d.filterType.getD ""
    config := d.config
    candidatesAffected := d.candidatesAffected.getD 0
    candidatesRejected := d.candidatesRejected.getD 0
    metadata := d.metadata.getD [] }

/-- Method `FiltersRepository.create`: builds the record and saves it.  The body
contains no check of any invariant and no conditional `throw`; the codomain
is `Except XError` solely so that the (absent) possibility of a rejected
creation is statable. -/
def filtersCreate (uuid : String) (d : FilterData) :
    Except XError FilterDomain :=
  .ok (filtersCreateRecord uuid d)

/-! ### Claim-level properties (stated over the embedding) -/

/-- Full-capture emission: one record per input item in input order, status
decided by membership of the key in the accepted set, rejected records
tagged with the fixed reason. -/
def FullCaptureEmission (cfg : MergedConfig) (step : Step)
    (cands : List CandidateOptions) (ids : List String) (r : Nat → Nat) :
    Prop :=
  (recordCandidatesCore cfg step cands ids r).2
      = cands.map (fullCaptureRecord step.id ids)
  ∧ (recordCandidatesCore cfg step cands ids r).2.length = cands.length
  ∧ (recordCandidatesCore cfg step cands ids r).2.map Candidate.candidateId
      = cands.map CandidateOptions.candidateId
  ∧ ∀ rec ∈ (recordCandidatesCore cfg step cands ids r).2,
      (rec.status = CandStatus.accepted ↔ ids.contains rec.candidateId = true)
      ∧ (rec.status = CandStatus.rejected
          ↔ ids.contains rec.candidateId = false)
      ∧ (rec.status = CandStatus.rejected → rec.reason = some "Filtered out")

/-- Hybrid-mode accepted slice: the accepted records are exactly the top
slice of the partition sorted descending by `score || 0`, their number is
`min(topAcceptedCount, acceptedPartitionSize)`, and every kept element's key
dominates every dropped element's key. -/
def HybridAcceptedOrdering (cfg : MergedConfig) (step : Step)
    (cands : List CandidateOptions) (ids : List String) (r : Nat → Nat) :
    Prop :=
  (recordCandidatesCore cfg step cands ids r).2.filter
        (fun c => decide (c.status = CandStatus.accepted))
      = (jsSliceTo (sortedAccepted cands ids)
          (effTopAcceptedCount cfg)).map (topAcceptedRecord step.id)
  ∧ ((recordCandidatesCore cfg step cands ids r).2.filter
        (fun c => decide (c.status = CandStatus.accepted))).length
      = min (effTopAcceptedCount cfg).toNat (acceptedPart cands ids).length
  ∧ ∀ x ∈ (sortedAccepted cands ids).take (effTopAcceptedCount cfg).toNat,
      ∀ y ∈ (sortedAccepted cands ids).drop (effTopAcceptedCount cfg).toNat,
        scoreKey y ≤ scoreKey x

/-- Hybrid-mode volume bound: at most `topAcceptedCount +
sampleRejectedCount` records, exactly `min(sampleRejectedCount,
rejectedPartitionSize)` rejected ones, every rejected one carrying the fixed
reason. -/
def HybridEmissionBound (cfg : MergedConfig) (step : Step)
    (cands : List CandidateOptions) (ids : List String) (r : Nat → Nat) :
    Prop :=
  (recordCandidatesCore cfg step cands ids r).2.length
      ≤ (effTopAcceptedCount cfg).toNat + (effSampleRejectedCount cfg).toNat
  ∧ ((recordCandidatesCore cfg step cands ids r).2.filter
        (fun c => decide (c.status = CandStatus.rejected))).length
      = min (effSampleRejectedCount cfg).toNat (rejectedPart cands ids).length
  ∧ ∀ rec ∈ (recordCandidatesCore cfg step cands ids r).2,
      rec.status = CandStatus.rejected → rec.reason = some "Filtered out"

/-- Full-capture score fidelity: the persisted records carry exactly the
input scores, position by position. -/
def FullCaptureScores (cfg : MergedConfig) (step : Step)
    (cands : List CandidateOptions) (ids : List String) (r : Nat → Nat) :
    Prop :=
  (recordCandidatesCore cfg step cands ids r).2.map Candidate.score
      = cands.map CandidateOptions.score

/-! ### Concrete fixtures -/

def cA : CandidateOptions := { candidateId := "a", score := some (-1) }

def cB : CandidateOptions := { candidateId := "b" }

def cS : CandidateOptions := { candidateId := "a", score := some 5 }

/-- Config with `topAcceptedCount := 1` to make the hybrid slice observable on tiny
batches. -/
def cfgTop1 : MergedConfig :=
  mergeConfig { apiUrl := "u", topAcceptedCount := some 1 }

/-- Config with `fullCaptureThreshold := 1` to enter hybrid mode on tiny batches. -/
def cfgSmall : MergedConfig :=
  mergeConfig { apiUrl := "u", fullCaptureThreshold := some 1 }

/-- An open step with the capture-all override explicitly `false`. -/
def stepH : Step :=
  { id := "s1"
    runId := "r1"
    stepType := "search"
    stepIndex := 0
    status := .running
    startedAt := 0
    captureAllCandidates := some false }

/-- An open step with no capture-all override. -/
def stepA : Step :=
  { id := "s1"
    runId := "r1"
    stepType := "search"
    stepIndex := 0
    status := .running
    startedAt := 0 }

def run0 : Run :=
  { id := "r1", pipelineId := "p", status := .running, startedAt := 0 }

/-- An engine with one active run and one still-open step. -/
def st0 : EngineState :=
  { currentRun := some run0, stepIndex := 1, pendingSteps := [stepA] }

def esInit : EngineState :=
  { currentRun := none, stepIndex := 0, pendingSteps := [] }

def roP : RunOptions := { pipelineId := "p" }

def soT : StepOptions := { stepType := "search" }

/-- The identifiers of the still-running steps among a registry snapshot:
exactly the steps the force-close pass of `completeRun` closes and
removes. -/
def runningIds (l : List Step) : List String :=
  (l.filter (fun st => decide (st.status = .running))).map Step.id

end Xray

namespace Xray

/-! ### Lemmas about the capture strategy -/

theorem filter_map_all (f : α → β) (q : β → Bool)
    (h : ∀ x, q (f x) = true) (l : List α) :
    (l.map f).filter q = l.map f := by
  induction l with
  | nil => rfl
  | cons a t ih => simp [List.filter_cons, h, ih]

theorem filter_map_none (f : α → β) (q : β → Bool)
    (h : ∀ x, q (f x) = false) (l : List α) :
    (l.map f).filter q = [] := by
  induction l with
  | nil => rfl
  | cons a t ih => simp [List.filter_cons, h, ih]

/-- The `??` resolution yields `false` whenever the batch is not below the
threshold and the per-step override is not `true`. -/
theorem resolveCaptureAll_eq_false (cfg : MergedConfig) (step : Step)
    (n : Nat) (h1 : effFullCaptureThreshold cfg ≤ (n : Int))
    (h2 : step.captureAllCandidates ≠ some true) :
    resolveCaptureAll cfg step n = false := by
  unfold resolveCaptureAll
  cases hc : step.captureAllCandidates with
  | none =>
    simp only [Option.getD_none, decide_eq_false_iff_not, not_lt]
    exact h1
  | some b =>
    cases b with
    | true => exact absurd hc h2
    | false => rfl

theorem length_sortedAccepted (cands : List CandidateOptions)
    (ids : List String) :
    (sortedAccepted cands ids).length = (acceptedPart cands ids).length :=
  length_sortDesc scoreKey (acceptedPart cands ids)

theorem recordCandidatesCore_snd (cfg : MergedConfig) (step : Step)
    (cands : List CandidateOptions) (ids : List String) (r : Nat → Nat) :
    (recordCandidatesCore cfg step cands ids r).2
      = candidatesToRecord cfg step.id cands ids
          (resolveCaptureAll cfg step cands.length) r := by
  simp only [recordCandidatesCore]

theorem recordCandidatesCore_fst (cfg : MergedConfig) (step : Step)
    (cands : List CandidateOptions) (ids : List String) (r : Nat → Nat) :
    (recordCandidatesCore cfg step cands ids r).1
      = { step with
            inputCount := some cands.length
            outputCount := some ids.length } := by
  simp only [recordCandidatesCore]

theorem candidatesToRecord_hybrid (cfg : MergedConfig) (stepId : String)
    (cands : List CandidateOptions) (ids : List String) (r : Nat → Nat) :
    candidatesToRecord cfg stepId cands ids false r
      = (jsSliceTo (sortedAccepted cands ids)
            (effTopAcceptedCount cfg)).map (topAcceptedRecord stepId)
        ++ (jsSliceTo (shuffle r (rejectedPart cands ids))
            (min (effSampleRejectedCount cfg)
              ((rejectedPart cands ids).length : Int))).map
            (sampledRejectedRecord stepId) := by
  simp only [candidatesToRecord, Bool.false_eq_true, if_false]

theorem candidatesToRecord_full (cfg : MergedConfig) (stepId : String)
    (cands : List CandidateOptions) (ids : List String) (r : Nat → Nat) :
    candidatesToRecord cfg stepId cands ids true r
      = cands.map (fullCaptureRecord stepId ids) := by
  simp only [candidatesToRecord, if_true]

theorem status_topAcceptedRecord (stepId : String) (c : CandidateOptions) :
    (topAcceptedRecord stepId c).status = CandStatus.accepted := rfl

theorem status_sampledRejectedRecord (stepId : String)
    (c : CandidateOptions) :
    (sampledRejectedRecord stepId c).status = CandStatus.rejected := rfl

/-- In hybrid mode the accepted-status records are exactly the mapped top
slice of the sorted accepted partition. -/
theorem hybrid_accepted_filter (cfg : MergedConfig) (stepId : String)
    (cands : List CandidateOptions) (ids : List String) (r : Nat → Nat) :
    (candidatesToRecord cfg stepId cands ids false r).filter
        (fun c => decide (c.status = CandStatus.accepted))
      = (jsSliceTo (sortedAccepted cands ids)
          (effTopAcceptedCount cfg)).map (topAcceptedRecord stepId) := by
  rw [candidatesToRecord_hybrid, List.filter_append,
    filter_map_all _ _ (fun c => by simp [status_topAcceptedRecord]),
    filter_map_none _ _ (fun c => by simp [status_sampledRejectedRecord]),
    List.append_nil]

/-- In hybrid mode the rejected-status records are exactly the mapped
sampled slice of the shuffled rejected partition. -/
theorem hybrid_rejected_filter (cfg : MergedConfig) (stepId : String)
    (cands : List CandidateOptions) (ids : List String) (r : Nat → Nat) :
    (candidatesToRecord cfg stepId cands ids false r).filter
        (fun c => decide (c.status = CandStatus.rejected))
      = (jsSliceTo (shuffle r (rejectedPart cands ids))
          (min (effSampleRejectedCount cfg)
            ((rejectedPart cands ids).length : Int))).map
          (sampledRejectedRecord stepId) := by
  rw [candidatesToRecord_hybrid, List.filter_append,
    filter_map_none _ _ (fun c => by simp [status_topAcceptedRecord]),
    filter_map_all _ _ (fun c => by simp [status_sampledRejectedRecord]),
    List.nil_append]

end Xray

namespace Xray

/-! ### Claim theorems: capture strategy -/

/-- Claim C2 (amended): in hybrid mode, the accepted partition is sorted by
`score || 0` descending — an absent score is treated as score `0`, not as
the lowest possible value — the top `topAcceptedCount` are emitted, and
every emitted accepted item's `score || 0` is ≥ every non-emitted accepted
item's `score || 0` (so a candidate with a negative present score sorts
below one with an absent score). -/
theorem claim2_theorem (cfg : MergedConfig) (step : Step)
    (cands : List CandidateOptions) (ids : List String) (r : Nat → Nat)
    (hca : resolveCaptureAll cfg step cands.length = false)
    (htop : 0 ≤ effTopAcceptedCount cfg) :
    HybridAcceptedOrdering cfg step cands ids r := by
  unfold HybridAcceptedOrdering
  rw [recordCandidatesCore_snd, hca, hybrid_accepted_filter]
  refine ⟨rfl, ?_, ?_⟩
  · rw [List.length_map, length_jsSliceTo_nonneg _ _ htop,
      length_sortedAccepted]
  · exact take_drop_dominance scoreKey _
      (pairwise_sortDesc scoreKey (acceptedPart cands ids)) _

/-- Claim C2, refutation of the original statement: with
`topAcceptedCount = 1` and the capture-all override `false`, a batch of two
accepted candidates — `"a"` with present score `-1` and `"b"` with absent
score — emits `"b"` (absent score, treated as `0`), not `"a"`; a present
negative score does NOT outrank an absent one. -/
theorem claim2_counterexample :
    (recordCandidatesCore cfgTop1 stepH [cA, cB] ["a", "b"]
        (fun _ => 0)).2.map (fun c => (c.candidateId, c.score))
      = [("b", (none : Option Int))] := by
  decide

/-- Claim C2 witness: the amended theorem applied to the concrete two-item
hybrid batch. -/
theorem claim2_witness :
    resolveCaptureAll cfgTop1 stepH ([cA, cB].length) = false
    ∧ 0 ≤ effTopAcceptedCount cfgTop1
    ∧ HybridAcceptedOrdering cfgTop1 stepH [cA, cB] ["a", "b"]
        (fun _ => 0) :=
  ⟨by decide, by decide,
    claim2_theorem cfgTop1 stepH [cA, cB] ["a", "b"] (fun _ => 0)
      (by decide) (by decide)⟩

/-- Claim C3 (amended): whenever the resolved capture-all flag is `true`
(override `true`, or no override and batch size below the threshold — an
explicit `false` override forces hybrid mode even for small batches),
`recordCandidates` emits exactly one persisted record per input item,
preserving every input key exactly once, with status `accepted` iff the key
is in the accepted set and `rejected` (reason "Filtered out") otherwise. -/
theorem claim3_theorem (cfg : MergedConfig) (step : Step)
    (cands : List CandidateOptions) (ids : List String) (r : Nat → Nat)
    (hca : resolveCaptureAll cfg step cands.length = true) :
    FullCaptureEmission cfg step cands ids r := by
  unfold FullCaptureEmission
  rw [recordCandidatesCore_snd, hca, candidatesToRecord_full]
  refine ⟨rfl, by rw [List.length_map], ?_, ?_⟩
  · rw [List.map_map]
    exact List.map_congr_left (fun c _ => rfl)
  · intro rec hrec
    obtain ⟨c, _, rfl⟩ := List.mem_map.mp hrec
    unfold fullCaptureRecord
    cases hb : isAccepted ids c with
    | true => simp_all [isAccepted]
    | false => simp_all [isAccepted]

/-- Claim C3, refutation of the original statement: a two-item batch (well
below the default threshold of 100) whose step carries the explicit
override `false` goes through hybrid mode, and with `topAcceptedCount = 1`
only one record is emitted instead of one per input item. -/
theorem claim3_counterexample :
    (2 : Int) < effFullCaptureThreshold cfgTop1
    ∧ stepH.captureAllCandidates = some false
    ∧ (recordCandidatesCore cfgTop1 stepH [cA, cB] ["a", "b"]
        (fun _ => 0)).2.length = 1 := by
  refine ⟨by decide, rfl, by decide⟩

/-- Claim C3 witness: the amended theorem applied to a concrete small batch
with no override. -/
theorem claim3_witness :
    resolveCaptureAll defaultConfig stepA ([cA, cB].length) = true
    ∧ FullCaptureEmission defaultConfig stepA [cA, cB] ["a"]
        (fun _ => 0) :=
  ⟨by decide,
    claim3_theorem defaultConfig stepA [cA, cB] ["a"] (fun _ => 0)
      (by decide)⟩

/-- Claim C4: in hybrid mode (batch not below the threshold, override not
`true`; thresholds non-negative), at most `topAcceptedCount +
sampleRejectedCount` records are emitted, the rejected subset has size
exactly `min(sampleRejectedCount, rejectedPartitionSize)`, and every
rejected record carries the fixed reason "Filtered out". -/
theorem claim4_theorem (cfg : MergedConfig) (step : Step)
    (cands : List CandidateOptions) (ids : List String) (r : Nat → Nat)
    (h1 : effFullCaptureThreshold cfg ≤ (cands.length : Int))
    (h2 : step.captureAllCandidates ≠ some true)
    (htop : 0 ≤ effTopAcceptedCount cfg)
    (hsr : 0 ≤ effSampleRejectedCount cfg) :
    HybridEmissionBound cfg step cands ids r := by
  have hca := resolveCaptureAll_eq_false cfg step cands.length h1 h2
  unfold HybridEmissionBound
  rw [recordCandidatesCore_snd, hca]
  have hsample : (0 : Int)
      ≤ min (effSampleRejectedCount cfg)
          ((rejectedPart cands ids).length : Int) := by
    have : (0 : Int) ≤ ((rejectedPart cands ids).length : Int) := by
      exact_mod_cast Nat.zero_le _
    omega
  refine ⟨?_, ?_, ?_⟩
  · rw [candidatesToRecord_hybrid, List.length_append, List.length_map,
      List.length_map, length_jsSliceTo_nonneg _ _ htop,
      length_jsSliceTo_nonneg _ _ hsample]
    have := Nat.min_le_left (effTopAcceptedCount cfg).toNat
      (sortedAccepted cands ids).length
    have := Nat.min_le_left
      (min (effSampleRejectedCount cfg)
        ((rejectedPart cands ids).length : Int)).toNat
      (shuffle r (rejectedPart cands ids)).length
    omega
  · rw [hybrid_rejected_filter, List.length_map,
      length_jsSliceTo_nonneg _ _ hsample, length_shuffle]
    omega
  · rw [candidatesToRecord_hybrid]
    intro rec hrec _
    rcases List.mem_append.mp hrec with hmem | hmem
    · obtain ⟨c, _, rfl⟩ := List.mem_map.mp hmem
      simp_all [status_topAcceptedRecord]
    · obtain ⟨c, _, rfl⟩ := List.mem_map.mp hmem
      rfl

/-- Claim C4 witness: the theorem applied at `fullCaptureThreshold = 1` to a
concrete one-item batch. -/
theorem claim4_witness :
    effFullCaptureThreshold cfgSmall ≤ (([cS].length : Nat) : Int)
    ∧ stepA.captureAllCandidates ≠ some true
    ∧ 0 ≤ effTopAcceptedCount cfgSmall
    ∧ 0 ≤ effSampleRejectedCount cfgSmall
    ∧ HybridEmissionBound cfgSmall stepA [cS] [] (fun _ => 0) :=
  ⟨by decide, by decide, by decide, by decide,
    claim4_theorem cfgSmall stepA [cS] [] (fun _ => 0)
      (by decide) (by decide) (by decide) (by decide)⟩

/-- Claim C5 (amended): in full-capture mode the input scores are carried
through onto ALL persisted records, accepted and rejected alike — not onto
accepted records only. -/
theorem claim5_theorem (cfg : MergedConfig) (step : Step)
    (cands : List CandidateOptions) (ids : List String) (r : Nat → Nat)
    (hca : resolveCaptureAll cfg step cands.length = true) :
    FullCaptureScores cfg step cands ids r := by
  unfold FullCaptureScores
  rw [recordCandidatesCore_snd, hca, candidatesToRecord_full, List.map_map]
  exact List.map_congr_left (fun c _ => rfl)

/-- Claim C5, refutation of the original statement: in full-capture mode a
rejected candidate with score `5` is persisted with status `rejected` AND
score `5` — emitted rejected items do carry a score. -/
theorem claim5_counterexample :
    (recordCandidatesCore defaultConfig stepA [cS] []
        (fun _ => 0)).2.map (fun c => (c.status, c.score))
      = [(CandStatus.rejected, some (5 : Int))] := by
  decide

/-- Claim C5 witness: the amended theorem applied to the concrete
full-capture batch. -/
theorem claim5_witness :
    resolveCaptureAll defaultConfig stepA ([cS].length) = true
    ∧ FullCaptureScores defaultConfig stepA [cS] [] (fun _ => 0) :=
  ⟨by decide,
    claim5_theorem defaultConfig stepA [cS] [] (fun _ => 0) (by decide)⟩

/-- Claim C6 (amended): `recordCandidates` sets `inputCount` to the batch
size and `outputCount` to the LENGTH OF THE ACCEPTED-KEY LIST (not to the
size of an accepted subset of the batch); the invariant
`outputCount ≤ inputCount` therefore holds exactly when the accepted-key
list is no longer than the batch — e.g. whenever the accepted keys are
distinct keys of batch items — and not for every possible key list. -/
theorem claim6_theorem (cfg : MergedConfig) (step : Step)
    (cands : List CandidateOptions) (ids : List String) (r : Nat → Nat)
    (h : ids.length ≤ cands.length) :
    (recordCandidatesCore cfg step cands ids r).1.inputCount
        = some cands.length
    ∧ (recordCandidatesCore cfg step cands ids r).1.outputCount
        = some ids.length
    ∧ ∀ i o : Nat,
        (recordCandidatesCore cfg step cands ids r).1.inputCount = some i →
        (recordCandidatesCore cfg step cands ids r).1.outputCount = some o →
        o ≤ i := by
  rw [recordCandidatesCore_fst]
  refine ⟨rfl, rfl, ?_⟩
  intro i o hi ho
  injection hi with hi
  injection ho with ho
  omega

/-- Claim C6, refutation of the original statement: an empty batch with a
one-element accepted-key list yields `inputCount = 0`, `outputCount = 1`,
violating `outputCount ≤ inputCount`. -/
theorem claim6_counterexample :
    (recordCandidatesCore defaultConfig stepA [] ["a"]
        (fun _ => 0)).1.inputCount = some 0
    ∧ (recordCandidatesCore defaultConfig stepA [] ["a"]
        (fun _ => 0)).1.outputCount = some 1
    ∧ ¬ ((1 : Nat) ≤ 0) := by
  refine ⟨by decide, by decide, by omega⟩

/-- Claim C6 witness: the amended theorem applied to a batch of two items
with one accepted key. -/
theorem claim6_witness :
    (["a"].length ≤ [cA, cB].length)
    ∧ (recordCandidatesCore defaultConfig stepA [cA, cB] ["a"]
          (fun _ => 0)).1.inputCount = some 2
    ∧ (recordCandidatesCore defaultConfig stepA [cA, cB] ["a"]
          (fun _ => 0)).1.outputCount = some 1 :=
  ⟨by decide,
    (claim6_theorem defaultConfig stepA [cA, cB] ["a"] (fun _ => 0)
      (by decide)).1,
    (claim6_theorem defaultConfig stepA [cA, cB] ["a"] (fun _ => 0)
      (by decide)).2.1⟩

/-- Claim C7 (amended): no layer validates the Filter invariant — the SDK's
`recordFilter` forwards the counts unchanged and `FiltersRepository.create`
persists them unchanged; a Filter with `candidatesRejected >
candidatesAffected` is created without any error. -/
theorem claim7_theorem (uuid stepId ftype : String) (a rj : Int)
    (h : a < rj) :
    (∃ f : FilterDomain,
        filtersCreate uuid
            { stepId := some stepId
              filterType := some ftype
              candidatesAffected := some a
              candidatesRejected := some rj } = .ok f
        ∧ f.candidatesAffected = a
        ∧ f.candidatesRejected = rj
        ∧ f.candidatesAffected < f.candidatesRejected)
    ∧ (recordFilter stepId
        { filterType := ftype
          candidatesAffected := a
          candidatesRejected := rj }).candidatesRejected = rj
    ∧ (recordFilter stepId
        { filterType := ftype
          candidatesAffected := a
          candidatesRejected := rj }).candidatesAffected = a :=
  ⟨⟨_, rfl, rfl, rfl, h⟩, rfl, rfl⟩

/-- Claim C7, refutation of the original statement: creating a Filter with
`candidatesAffected = 1` and `candidatesRejected = 5` succeeds (`.ok`, no
error) and persists the violating counts verbatim. -/
theorem claim7_counterexample :
    filtersCreate "f1"
        { stepId := some "s1"
          filterType := some "price"
          candidatesAffected := some 1
          candidatesRejected := some 5 }
      = .ok
        { id := "f1"
          stepId := "s1"
          filterType := "price"
          config := none
          candidatesAffected := 1
          candidatesRejected := 5
          metadata := [] } := by
  rfl

/-- Claim C7 witness: the amended theorem at concrete counts `1 < 5`. -/
theorem claim7_witness :
    ((1 : Int) < 5)
    ∧ ((∃ f : FilterDomain,
        filtersCreate "f1"
            { stepId := some "s1"
              filterType := some "price"
              candidatesAffected := some (1 : Int)
              candidatesRejected := some (5 : Int) } = .ok f
        ∧ f.candidatesAffected = 1
        ∧ f.candidatesRejected = 5
        ∧ f.candidatesAffected < f.candidatesRejected)
      ∧ (recordFilter "s1"
          { filterType := "price"
            candidatesAffected := (1 : Int)
            candidatesRejected := (5 : Int) }).candidatesRejected = 5
      ∧ (recordFilter "s1"
          { filterType := "price"
            candidatesAffected := (1 : Int)
            candidatesRejected := (5 : Int) }).candidatesAffected = 1) :=
  ⟨by omega, claim7_theorem "f1" "s1" "price" 1 5 (by omega)⟩

/-- Claim C8 (amended): the `XRay` constructor performs no validation at
all — it only merges the defaults into the caller's configuration; a
malformed configuration with negative thresholds is accepted at
construction time, the negative values stored verbatim, and no
configuration error is ever raised. -/
theorem claim8_theorem (c : XRayConfig) (t : Int) (ht : t < 0)
    (hc : c.fullCaptureThreshold = some t) :
    ∃ m : MergedConfig,
      xrayInit c = .ok m ∧ m.fullCaptureThreshold = t :=
  ⟨mergeConfig c, rfl, by simp [mergeConfig, hc]⟩

/-- Claim C8, refutation of the original statement: constructing with
negative `fullCaptureThreshold`, `topAcceptedCount` and
`sampleRejectedCount` succeeds (`.ok`, no configuration error) and stores
the negative values. -/
theorem claim8_counterexample :
    xrayInit
        { apiUrl := "u"
          fullCaptureThreshold := some (-1)
          topAcceptedCount := some (-2)
          sampleRejectedCount := some (-3) }
      = .ok
        { apiUrl := "u"
          timeout := none
          retryOnFailure := none
          fullCaptureThreshold := -1
          summaryThreshold := 1000
          topAcceptedCount := -2
          sampleRejectedCount := -3 } := by
  rfl

/-- Claim C8 witness: the amended theorem at the concrete negative
threshold `-1`. -/
theorem claim8_witness :
    ((-1 : Int) < 0)
    ∧ (XRayConfig.fullCaptureThreshold
        { apiUrl := "u", fullCaptureThreshold := some (-1) } = some (-1))
    ∧ ∃ m : MergedConfig,
        xrayInit { apiUrl := "u", fullCaptureThreshold := some (-1) }
            = .ok m
        ∧ m.fullCaptureThreshold = -1 :=
  ⟨by omega, rfl,
    claim8_theorem { apiUrl := "u", fullCaptureThreshold := some (-1) }
      (-1) (by omega) rfl⟩

end Xray

namespace Xray

/-! ### Lemmas about the lifecycle engine -/

/-- Deleting one key leaves lookups of any other key unchanged. -/
theorem mapGet_mapDelete_ne (m : List Step) (i i' : String) (h : i' ≠ i) :
    mapGet (mapDelete m i) i' = mapGet m i' := by
  induction m with
  | nil => rfl
  | cons e t ih =>
    unfold mapDelete mapGet at *
    by_cases he : e.id = i
    · have h1 : (e.id != i) = false := by simp [he]
      have h2 : (e.id == i') = false := by
        simp only [beq_eq_false_iff_ne, ne_eq]
        rw [he]
        exact fun hh => h hh.symm
      rw [List.filter_cons, h1]
      simp only [Bool.false_eq_true, if_false]
      rw [List.find?_cons, h2, ih]
    · have h1 : (e.id != i) = true := by simp [he]
      rw [List.filter_cons, h1]
      simp only [if_true]
      rw [List.find?_cons, List.find?_cons]
      cases he' : (e.id == i') with
      | true => rfl
      | false => exact ih

/-- In a registry with unique keys, looking a member step up by its own
identifier returns that step. -/
theorem mapGet_mem_nodup (m : List Step)
    (hnd : (m.map Step.id).Nodup) :
    ∀ st ∈ m, mapGet m st.id = some st := by
  induction m with
  | nil => intro st hst; cases hst
  | cons e t ih =>
    intro st hst
    have hnd0 : (e.id :: t.map Step.id).Nodup := by
      simpa using hnd
    have hnd' := List.nodup_cons.mp hnd0
    rcases List.mem_cons.mp hst with rfl | hst
    · unfold mapGet
      rw [List.find?_cons]
      simp
    · have hne : (e.id == st.id) = false := by
        simp only [beq_eq_false_iff_ne, ne_eq]
        intro hh
        exact hnd'.1 (hh ▸ List.mem_map_of_mem Step.id hst)
      unfold mapGet
      rw [List.find?_cons, hne]
      exact ih hnd'.2 st hst

/-- Behaviour of `completeStep` on a registered step, as invoked by the force-close pass
of `completeRun`: the string `"Run completed"` arrives in the `error`
parameter, so the step is closed with status `failed` and error
`"Run completed"`, its reasoning left as it was. -/
theorem completeStep_force (s : EngineState) (st : Step) (now : Int)
    (h : mapGet s.pendingSteps st.id = some st) :
    completeStep s st.id none (some "Run completed") none now =
      .ok ({ s with pendingSteps := mapDelete s.pendingSteps st.id },
        { stepId := st.id
          status := .failed
          completedAt := now
          durationMs := now - st.startedAt
          output := none
          error := some "Run completed"
          reasoning := st.reasoning }) := by
  unfold completeStep
  rw [h]
  rfl

/-- Unfolding equation: the loop skips a snapshot step that is not
running. -/
theorem forceCloseLoop_cons_notrun (now : Int) (st : Step)
    (rest : List Step) (s : EngineState) (h : ¬ st.status = .running) :
    forceCloseLoop now (st :: rest) s = forceCloseLoop now rest s := by
  simp only [forceCloseLoop]
  rw [if_neg h]

/-- Unfolding equation: the loop force-closes a running registered snapshot
step and recurses on the registry with that step removed. -/
theorem forceCloseLoop_cons_run (now : Int) (st : Step) (rest : List Step)
    (s : EngineState) (h : st.status = .running)
    (hget : mapGet s.pendingSteps st.id = some st) :
    forceCloseLoop now (st :: rest) s
      = ((forceCloseLoop now rest
            { s with pendingSteps := mapDelete s.pendingSteps st.id }).1,
          { stepId := st.id
            status := .failed
            completedAt := now
            durationMs := now - st.startedAt
            output := none
            error := some "Run completed"
            reasoning := st.reasoning }
            :: (forceCloseLoop now rest
              { s with pendingSteps := mapDelete s.pendingSteps st.id }).2) := by
  simp only [forceCloseLoop]
  rw [if_pos h, completeStep_force s st now hget]

/-- The force-close pass, fully characterised: it emits one `failed` /
`"Run completed"` update per still-running snapshot step (in snapshot
order, reasoning untouched), leaves `currentRun` and `stepIndex` alone, and
removes exactly the still-running snapshot steps from the registry. -/
theorem forceCloseLoop_spec (now : Int) (l : List Step) :
    ∀ s : EngineState,
      (∀ st ∈ l, mapGet s.pendingSteps st.id = some st) →
      (l.map Step.id).Nodup →
      (forceCloseLoop now l s).2.map
          (fun u => (u.stepId, u.status, u.error, u.reasoning))
        = (l.filter (fun st => decide (st.status = .running))).map
            (fun st =>
              (st.id, LifeStatus.failed, some "Run completed", st.reasoning))
      ∧ (forceCloseLoop now l s).1.currentRun = s.currentRun
      ∧ (forceCloseLoop now l s).1.stepIndex = s.stepIndex
      ∧ (forceCloseLoop now l s).1.pendingSteps
          = s.pendingSteps.filter
              (fun st => !(runningIds l).contains st.id) := by
  induction l with
  | nil =>
    intro s _ _
    refine ⟨rfl, rfl, rfl, ?_⟩
    simp [forceCloseLoop, runningIds]
  | cons st rest ih =>
    intro s hpresent hnd
    have hnd0 : (st.id :: rest.map Step.id).Nodup := by
      simpa using hnd
    have hnd' := List.nodup_cons.mp hnd0
    by_cases hrun : st.status = .running
    · have hloop := forceCloseLoop_cons_run now st rest s hrun
        (hpresent st (List.mem_cons_self st rest))
      have hrest : ∀ x ∈ rest,
          mapGet (mapDelete s.pendingSteps st.id) x.id = some x := by
        intro x hx
        have hne : x.id ≠ st.id := by
          intro hh
          exact hnd'.1 (hh ▸ List.mem_map_of_mem Step.id hx)
        rw [mapGet_mapDelete_ne _ _ _ hne]
        exact hpresent x (List.mem_cons_of_mem st hx)
      have hih := ih { s with pendingSteps := mapDelete s.pendingSteps st.id }
        hrest hnd'.2
      rw [hloop]
      refine ⟨?_, hih.2.1, hih.2.2.1, ?_⟩
      · rw [List.filter_cons, if_pos (by simp [hrun]), List.map_cons,
          List.map_cons, hih.1]
      · rw [hih.2.2.2]
        show (s.pendingSteps.filter (fun x => x.id != st.id)).filter
            (fun x => !(runningIds rest).contains x.id) = _
        rw [List.filter_filter]
        apply List.filter_congr
        intro x _
        have hcons : runningIds (st :: rest) = st.id :: runningIds rest := by
          unfold runningIds
          rw [List.filter_cons, if_pos (by simp [hrun]), List.map_cons]
        rw [hcons, List.contains_cons, Bool.not_or]
        cases h1 : x.id == st.id <;>
          cases h2 : (runningIds rest).contains x.id <;>
            simp [bne, h1, h2]
    · have hloop := forceCloseLoop_cons_notrun now st rest s hrun
      have hih := ih s
        (fun x hx => hpresent x (List.mem_cons_of_mem st hx)) hnd'.2
      rw [hloop]
      have hcons : runningIds (st :: rest) = runningIds rest := by
        unfold runningIds
        rw [List.filter_cons, if_neg (by simp [hrun])]
      refine ⟨?_, hih.2.1, hih.2.2.1, ?_⟩
      · rw [List.filter_cons, if_neg (by simp [hrun])]
        exact hih.1
      · rw [hcons]
        exact hih.2.2.2

/-- Behaviour of `startStep` under an active run: always succeeds, returns the current
counter value as the step's index, then increments the counter and
registers the step; `currentRun` is untouched. -/
theorem startStep_some (s : EngineState) (o : StepOptions) (apiId : String)
    (t : Int) (run : Run) (h : s.currentRun = some run) :
    startStep s o apiId t
      = .ok
        ({ s with
            stepIndex := s.stepIndex + 1
            pendingSteps := mapSet s.pendingSteps
              (mkStep o run.id s.stepIndex apiId t) },
          mkStep o run.id s.stepIndex apiId t) := by
  unfold startStep
  rw [h]

/-- Iterating `startStep` under an active run returns the consecutive
indices `stepIndex, stepIndex+1, …` and keeps the run active. -/
theorem startSteps_spec (ps : List (StepOptions × String × Int)) :
    ∀ (s : EngineState) (run : Run), s.currentRun = some run →
      (startSteps s ps).2 = List.range' s.stepIndex ps.length
      ∧ (startSteps s ps).1.currentRun = some run := by
  induction ps with
  | nil =>
    intro s run h
    exact ⟨rfl, h⟩
  | cons p rest ih =>
    obtain ⟨o, apiId, t⟩ := p
    intro s run h
    have hss := startStep_some s o apiId t run h
    have hstep : startSteps s ((o, apiId, t) :: rest)
        = ((startSteps
              { s with
                  stepIndex := s.stepIndex + 1
                  pendingSteps := mapSet s.pendingSteps
                    (mkStep o run.id s.stepIndex apiId t) } rest).1,
            s.stepIndex
              :: (startSteps
                { s with
                    stepIndex := s.stepIndex + 1
                    pendingSteps := mapSet s.pendingSteps
                      (mkStep o run.id s.stepIndex apiId t) } rest).2) := by
      simp only [startSteps]
      rw [hss]
      rfl
    have hih := ih
      { s with
          stepIndex := s.stepIndex + 1
          pendingSteps := mapSet s.pendingSteps
            (mkStep o run.id s.stepIndex apiId t) } run h
    constructor
    · rw [hstep, List.length_cons, List.range'_succ]
      rw [hih.1]
    · rw [hstep]
      exact hih.2

end Xray

namespace Xray

/-! ### Claim theorems: lifecycle engine -/

/-- Claim C1 (amended): for every run, `completeRun` force-closes each
still-registered running step through `completeStep` with the string
`"Run completed"` passed in the ERROR position — so every such step is
closed with status `failed` and error `"Run completed"`, its reasoning left
unchanged (no placeholder reasoning is set) — regardless of the run's own
outcome and of whether the final run update succeeds. -/
theorem claim1_theorem (s : EngineState) (run : Run) (out : Payload)
    (err : Option String) (now : Int) (flag : Bool)
    (h : s.currentRun = some run)
    (hnd : (s.pendingSteps.map Step.id).Nodup) :
    (completeRun s out err now flag).2.1.map
        (fun u => (u.stepId, u.status, u.error, u.reasoning))
      = (s.pendingSteps.filter
            (fun st => decide (st.status = .running))).map
          (fun st =>
            (st.id, LifeStatus.failed, some "Run completed",
              st.reasoning)) := by
  have hpres := mapGet_mem_nodup s.pendingSteps hnd
  have hspec := forceCloseLoop_spec now s.pendingSteps
    { s with currentRun := some { run with
        status := if jsTruthyStr err then .failed else .completed
        completedAt := some now
        output := out
        error := err } } hpres hnd
  unfold completeRun
  rw [h]
  cases flag <;> exact hspec.1

/-- Claim C1, refutation of the original statement: an engine with one open
running step, on `completeRun` with a successful outcome, sends a step
update with status `failed` (not `completed`), error `"Run completed"`, and
NO reasoning (in particular not the placeholder "run ended while step was
open"). -/
theorem claim1_counterexample :
    (completeRun st0 none none 100 true).2.1.map
        (fun u => (u.stepId, u.status, u.error, u.reasoning))
      = [("s1", LifeStatus.failed, some "Run completed",
          (none : Option String))] := by
  decide

/-- Claim C1 witness: the amended theorem applied to the concrete engine
with one open step. -/
theorem claim1_witness :
    st0.currentRun = some run0
    ∧ (st0.pendingSteps.map Step.id).Nodup
    ∧ (completeRun st0 none none 100 true).2.1.map
        (fun u => (u.stepId, u.status, u.error, u.reasoning))
      = (st0.pendingSteps.filter
            (fun st => decide (st.status = .running))).map
          (fun st =>
            (st.id, LifeStatus.failed, some "Run completed",
              st.reasoning)) :=
  ⟨rfl, by decide,
    claim1_theorem st0 run0 none none 100 true rfl (by decide)⟩

/-- Claim C9: successful `startStep` calls within one run return exactly the
indices `0, 1, 2, …` in call order, and the counter is reset to `0` by
`startRun` and by a successful `completeRun`. -/
theorem claim9_theorem :
    (∀ (s : EngineState) (o : RunOptions) (apiId : String) (t : Int)
        (ps : List (StepOptions × String × Int)),
      (startSteps (startRun s o apiId t).1 ps).2 = List.range ps.length)
    ∧ (∀ (s : EngineState) (o : RunOptions) (apiId : String) (t : Int),
        (startRun s o apiId t).1.stepIndex = 0)
    ∧ ∀ (s : EngineState) (run : Run) (out : Payload)
        (err : Option String) (now : Int),
        s.currentRun = some run →
        (completeRun s out err now true).1.stepIndex = 0 := by
  refine ⟨?_, fun _ _ _ _ => rfl, ?_⟩
  · intro s o apiId t ps
    have h := (startSteps_spec ps (startRun s o apiId t).1 _ rfl).1
    rw [List.range_eq_range' ps.length]
    exact h
  · intro s run out err now h
    unfold completeRun
    rw [h]
    rfl

/-- Claim C9 witness: two opened steps get indices `[0, 1]`, and the
concrete engine's counter is `0` after a successful `completeRun`. -/
theorem claim9_witness :
    ((startSteps (startRun esInit roP "r1" 0).1
        [(soT, "s1", 1), (soT, "s2", 2)]).2 = List.range 2)
    ∧ st0.currentRun = some run0
    ∧ (completeRun st0 none none 100 true).1.stepIndex = 0 :=
  ⟨claim9_theorem.1 esInit roP "r1" 0 [(soT, "s1", 1), (soT, "s2", 2)],
    rfl,
    claim9_theorem.2.2 st0 run0 none none 100 rfl⟩

/-- Claim C10: when the final `client.updateRun` inside `completeRun`
throws, the engine-local state is not cleared — `getCurrentRun` still
returns the (mutated) run — even though every step that was still open at
entry has already been force-closed and deregistered: run completion is not
atomic with respect to engine-local state on error. -/
theorem claim10_theorem (s : EngineState) (run : Run) (out : Payload)
    (err : Option String) (now : Int)
    (h : s.currentRun = some run)
    (hnd : (s.pendingSteps.map Step.id).Nodup) :
    (completeRun s out err now false).2.2 = some XError.transport
    ∧ getCurrentRun (completeRun s out err now false).1
        = some
          { run with
              status := if jsTruthyStr err then .failed else .completed
              completedAt := some now
              output := out
              error := err }
    ∧ ∀ st ∈ (completeRun s out err now false).1.pendingSteps,
        ¬ st.status = .running := by
  have hpres := mapGet_mem_nodup s.pendingSteps hnd
  have hspec := forceCloseLoop_spec now s.pendingSteps
    { s with currentRun := some { run with
        status := if jsTruthyStr err then .failed else .completed
        completedAt := some now
        output := out
        error := err } } hpres hnd
  have hcr : completeRun s out err now false
      = ((forceCloseLoop now s.pendingSteps
            { s with currentRun := some { run with
                status := if jsTruthyStr err then .failed else .completed
                completedAt := some now
                output := out
                error := err } }).1,
          (forceCloseLoop now s.pendingSteps
            { s with currentRun := some { run with
                status := if jsTruthyStr err then .failed else .completed
                completedAt := some now
                output := out
                error := err } }).2,
          some XError.transport) := by
    unfold completeRun
    rw [h]
    rfl
  refine ⟨by rw [hcr], ?_, ?_⟩
  · show (completeRun s out err now false).1.currentRun = _
    rw [hcr]
    exact hspec.2.1
  · intro st hst hrun
    rw [hcr] at hst
    rw [hspec.2.2.2] at hst
    rcases List.mem_filter.mp hst with ⟨hmem, hkeep⟩
    have hid : st.id ∈ runningIds s.pendingSteps :=
      List.mem_map_of_mem Step.id
        (List.mem_filter.mpr ⟨hmem, by simp [hrun]⟩)
    have hcontains : (runningIds s.pendingSteps).contains st.id = true := by
      simpa using hid
    rw [hcontains] at hkeep
    simp at hkeep

/-- Claim C10 witness: the theorem applied to the concrete engine with one
open step and a failing run update. -/
theorem claim10_witness :
    st0.currentRun = some run0
    ∧ (st0.pendingSteps.map Step.id).Nodup
    ∧ (completeRun st0 none none 100 false).2.2 = some XError.transport
    ∧ getCurrentRun (completeRun st0 none none 100 false).1
        = some
          { run0 with
              status := if jsTruthyStr none then .failed else .completed
              completedAt := some 100
              output := none
              error := none }
    ∧ ∀ st ∈ (completeRun st0 none none 100 false).1.pendingSteps,
        ¬ st.status = .running :=
  ⟨rfl, by decide,
    (claim10_theorem st0 run0 none none 100 rfl (by decide)).1,
    (claim10_theorem st0 run0 none none 100 rfl (by decide)).2.1,
    (claim10_theorem st0 run0 none none 100 rfl (by decide)).2.2⟩

end Xray
